import Mathlib

/-!
Shallow embedding of the multi-source geocoding resolver of
`src/backend/server.js` (the `enhancedGeocode` cascade and its helpers,
roughly lines 1030-1325), together with theorems settling the claims
about it.

Conventions of the embedding:
* JavaScript strings are Lean `String`s; the string operations the code
  uses (`includes`, `toLowerCase`, `||` fallbacks, `join`) are modelled
  by executable helpers below that follow JS truthiness (an absent field
  and the empty string are falsy).
* JavaScript numbers are modelled as rationals (`ℚ`).  Numeric literal
  thresholds such as `0.7` are written `mkRat 7 10`.  A Nominatim
  candidate's `lat`/`lon` JSON strings are carried as the rational value
  `parseFloat` yields on them, with `none` standing for a string that
  parses to `NaN`; no part of the resolver inspects these values, it
  only passes them through.
* A provider fetch is modelled by its observable outcome: `failure`
  (network error, timeout, non-2xx response or JSON error - everything
  the source's `catch` block rethrows) or `success` with the parsed
  body.  Thrown exceptions are `Except.error`; `enhancedGeocode` itself
  is a total function into `Option`, mirroring the source's `catch`
  that converts every provider exception into fallthrough.
* `enhancedGeocode` also returns a call log: one `(providerName, query)`
  entry per provider adapter actually invoked, in invocation order.
-/

/-! ### JavaScript string primitives -/

/-- `jsIncludesL s pat`: JS `String.prototype.includes` on character
lists; `true` iff `pat` occurs contiguously in `s` (always true for the
empty pattern). -/
def jsIncludesL (s pat : List Char) : Bool :=
  match s with
  | [] => pat.isEmpty
  | _ :: t => pat.isPrefixOf s || jsIncludesL t pat

/-- JS `s.includes(pat)`. -/
def jsIncludes (s pat : String) : Bool :=
  jsIncludesL s.data pat.data

/-- JS `s.toLowerCase()` (ASCII case folding, which is all the resolver
relies on). -/
def jsToLower (s : String) : String :=
  ⟨s.data.map Char.toLower⟩

/-- JS truthiness of a possibly absent string: `undefined` and `''` are
falsy. -/
def truthyStr : Option String → Bool
  | some s => decide (s ≠ "")
  | none => false

/-- JS `a || b` where `a` is a possibly absent string and `b` the
fallback. -/
def jsOrStr (a : Option String) (b : String) : String :=
  match a with
  | some s => if s = "" then b else s
  | none => b

/-- JS truthiness of a possibly absent number: `undefined` and `0` are
falsy. -/
def truthyNum : Option ℚ → Bool
  | some q => decide (q ≠ 0)
  | none => false

/-- JS `o?.toLowerCase()` used as an argument of `includes`: when `o` is
absent the optional chain yields `undefined`, which `includes` coerces
to the literal string `"undefined"`. -/
def lowerOrUndefined : Option String → String
  | some s => jsToLower s
  | none => "undefined"

/-- JS `o?.toLowerCase().includes(pat)`: the optional chain
short-circuits to `undefined` (falsy) when `o` is absent. -/
def optIncludes (o : Option String) (pat : String) : Bool :=
  match o with
  | some s => jsIncludes (jsToLower s) pat
  | none => false

/-- JS `parts.join(', ')`. -/
def joinComma : List String → String
  | [] => ""
  | [s] => s
  | s :: rest => s ++ ", " ++ joinComma rest

/-- One JS whitespace character, as matched by the regex class `\s`. -/
def jsWhitespace (c : Char) : Bool :=
  c = ' ' || c = '\t' || c = '\n' || c = '\r' || c = '\x0b' || c = '\x0c' || c = '\xa0'

/-! ### Data model -/

/-- The `address` record of a Nominatim candidate, with the fields the
resolver reads. -/
structure NominatimAddress where
  country : Option String
  city : Option String
  town : Option String
  village : Option String
  state : Option String
  province : Option String
deriving DecidableEq, Inhabited, Repr

/-- One candidate of a Nominatim JSON response, with the fields the
resolver reads.  `lat`/`lon` carry the value `parseFloat` yields on the
candidate's coordinate strings (`none` for `NaN`); `class_` renders the
JSON field `class`, which is a Lean keyword. -/
structure NominatimResult where
  lat : Option ℚ
  lon : Option ℚ
  display_name : String
  type : Option String
  class_ : Option String
  importance : Option ℚ
  address : Option NominatimAddress
deriving DecidableEq, Inhabited, Repr

/-- The `properties` record of a Photon feature, with the fields the
resolver reads. -/
structure PhotonProperties where
  name : Option String
  street : Option String
  city : Option String
  state : Option String
  country : Option String
  osm_key : Option String
deriving DecidableEq, Inhabited, Repr

/-- One feature of a Photon response.  `coord0`/`coord1` are
`geometry.coordinates[0]` (longitude) and `geometry.coordinates[1]`
(latitude). -/
structure PhotonFeature where
  coord0 : ℚ
  coord1 : ℚ
  properties : PhotonProperties
deriving DecidableEq, Inhabited, Repr

/-- The normalized result object the resolver returns.  `lat`/`lon` are
the pass-through of the chosen candidate's parsed coordinates. -/
structure GeocodeResult where
  lat : Option ℚ
  lon : Option ℚ
  display_name : String
  confidence : String
  source : String
  country : String
  city : String
  state : String
deriving DecidableEq, Inhabited, Repr

/-- The numeric value of a candidate's `importance` field as the scoring
arithmetic uses it (absent counts as `0`). -/
def jsImportance (r : NominatimResult) : ℚ :=
  r.importance.getD 0

/-! ### findBestNominatimResult (server.js:1193) -/

/-- The `typeScores` table of `findBestNominatimResult`; lookup is
`typeScores[type] || 0`. -/
def typeScores (t : String) : ℚ :=
  if t = "city" then 10
  else if t = "town" then 9
  else if t = "village" then 8
  else if t = "suburb" then 7
  else if t = "neighbourhood" then 6
  else if t = "hamlet" then 5
  else if t = "administrative" then 4
  else if t = "house" then 3
  else if t = "building" then 2
  else if t = "amenity" then 1
  else 0

/-- The score the loop body of `findBestNominatimResult` assigns to one
candidate: type weight (`result.type || result.class || ''`), plus
`importance * 10` when `importance` is truthy, plus `5` on a
display-name match, plus `3` when `address?.country?.toLowerCase()`
contains `canada` or `united states`. -/
def nominatimScore (r : NominatimResult) (locationLower : String) : ℚ :=
  let t := jsOrStr r.type (jsOrStr r.class_ "")
  let s0 : ℚ := typeScores t
  let s1 : ℚ := if truthyNum r.importance then s0 + jsImportance r * 10 else s0
  let s2 : ℚ := if jsIncludes (jsToLower r.display_name) locationLower then s1 + 5 else s1
  let country := jsOrStr ((r.address.bind NominatimAddress.country).map jsToLower) ""
  if jsIncludes country "canada" || jsIncludes country "united states" then s2 + 3 else s2

/-- The fold of `findBestNominatimResult`'s for-loop: the accumulator is
`(bestResult, bestScore)`, updated exactly when `score > bestScore`. -/
def findBestAux (locationLower : String) :
    List NominatimResult → NominatimResult × ℚ → NominatimResult × ℚ
  | [], acc => acc
  | r :: rest, (best, bestScore) =>
    if bestScore < nominatimScore r locationLower then
      findBestAux locationLower rest (r, nominatimScore r locationLower)
    else findBestAux locationLower rest (best, bestScore)

/-- `findBestNominatimResult(results, originalLocation)`: the loop
starts from `bestResult = results[0]`, `bestScore = 0` and scans the
whole list.  (On `[]` the model returns the junk `default`; the caller
`tryNominatim` guards `data.length === 0` so this is unreachable.) -/
def findBestNominatimResult (results : List NominatimResult) (originalLocation : String) :
    NominatimResult :=
  let locationLower := jsToLower originalLocation
  (findBestAux locationLower results (results.headD default, 0)).1

/-! ### calculateNominatimConfidence (server.js:1246) -/

/-- The JS regex `/^[A-Za-z]\d[A-Za-z]\s?\d[A-Za-z]\d$/` on a character
list: letter digit letter, an optional whitespace, digit letter digit. -/
def isPostalShape : List Char → Bool
  | [a, b, c, d, e, f] =>
    a.isAlpha && b.isDigit && c.isAlpha && d.isDigit && e.isAlpha && f.isDigit
  | [a, b, c, w, d, e, f] =>
    a.isAlpha && b.isDigit && c.isAlpha && jsWhitespace w && d.isDigit && e.isAlpha && f.isDigit
  | _ => false

/-- The postal-code test the confidence heuristic applies to the raw
query text. -/
def postalCodeTest (s : String) : Bool :=
  isPostalShape s.data

/-- `calculateNominatimConfidence(result, originalLocation)`.  The
thresholds `0.7`/`0.4` are written `mkRat 7 10`/`mkRat 4 10`.  The
`medium` disjunction is guarded by `result.address &&`, and each
`locationLower.includes(result.address.field?.toLowerCase())` coerces an
absent field to the string `"undefined"` (JS semantics), which
`lowerOrUndefined` renders.  The source's `result.display_name?.` guard
is inert here because `display_name` is always a string. -/
def calculateNominatimConfidence (result : NominatimResult) (originalLocation : String) :
    String :=
  let locationLower := jsToLower originalLocation
  let displayLower := jsToLower result.display_name
  if jsIncludes displayLower locationLower
      || postalCodeTest originalLocation
      || (truthyNum result.importance && decide (mkRat 7 10 < jsImportance result)) then
    "high"
  else if (match result.address with
      | some addr =>
        jsIncludes locationLower (lowerOrUndefined addr.city)
          || jsIncludes locationLower (lowerOrUndefined addr.town)
          || jsIncludes locationLower (lowerOrUndefined addr.state)
          || (truthyNum result.importance && decide (mkRat 4 10 < jsImportance result))
      | none => false) then
    "medium"
  else
    "low"

/-! ### Photon helpers (server.js:1270-1301) -/

/-- `calculatePhotonConfidence(result, originalLocation)`. -/
def calculatePhotonConfidence (f : PhotonFeature) (originalLocation : String) : String :=
  let p := f.properties
  let locationLower := jsToLower originalLocation
  if optIncludes p.name locationLower
      || jsIncludes locationLower (lowerOrUndefined p.name)
      || p.osm_key == some "place" then
    "high"
  else if optIncludes p.city locationLower
      || optIncludes p.state locationLower
      || optIncludes p.street locationLower then
    "medium"
  else
    "low"

/-- One conditional `parts.push(field)` of `formatPhotonDisplayName`:
the field is appended exactly when it is truthy. -/
def pushTruthy : Option String → List String
  | some s => if s = "" then [] else [s]
  | none => []

/-- `formatPhotonDisplayName(properties)`: push each truthy field of
name, street, city, state, country in that order, join with `', '`, and
fall back to `'Unknown Location'` when the join is falsy (empty). -/
def formatPhotonDisplayName (properties : PhotonProperties) : String :=
  let parts :=
    pushTruthy properties.name ++ pushTruthy properties.street ++ pushTruthy properties.city
      ++ pushTruthy properties.state ++ pushTruthy properties.country
  jsOrStr (some (joinComma parts)) "Unknown Location"

/-! ### generateLocationSuggestions (server.js:1304) -/

/-- The five fixed generic formatting hints. -/
def baseSuggestions : List String :=
  ["Try including province/state (e.g., \"Vancouver, BC\" or \"Seattle, WA\")",
   "Use full address (e.g., \"123 Main St, Toronto, ON\")",
   "Include postal/zip code (e.g., \"M5V 3L9\" or \"90210\")",
   "Try neighborhood name (e.g., \"Downtown Toronto\")",
   "Check spelling of city/region name"]

/-- The Canada-specific hint. -/
def canadaSuggestion : String :=
  "For Canadian locations, include province (e.g., \"Calgary, AB\")"

/-- The US-specific hint. -/
def usSuggestion : String :=
  "For US locations, include state (e.g., \"Austin, TX\")"

/-- `generateLocationSuggestions(location)`: two conditional `unshift`s
onto the base list (Canada first, then US, so when both fire the US
hint ends up at the head). -/
def generateLocationSuggestions (location : String) : List String :=
  let locationLower := jsToLower location
  let s1 :=
    if jsIncludes locationLower "canada" || jsIncludes locationLower "canadian" then
      canadaSuggestion :: baseSuggestions
    else baseSuggestions
  if jsIncludes locationLower "us" || jsIncludes locationLower "america" then
    usSuggestion :: s1
  else s1

/-! ### Provider adapters and the cascade (server.js:1030-1190) -/

/-- Observable outcome of one provider's fetch-and-parse: `failure`
covers timeouts, connection errors, non-2xx statuses and JSON errors
(everything the source's `catch` rethrows); `success` carries the
parsed body. -/
inductive FetchOutcome (α : Type) where
  | failure : FetchOutcome α
  | success : α → FetchOutcome α
deriving DecidableEq, Repr

/-- The `GeocodeResult` `tryNominatim` builds from the chosen candidate
(server.js:1090): `parseFloat` pass-through of the coordinates,
confidence from the heuristic, source `'nominatim'`, and `||`-chained
address fields. -/
def nominatimNormalize (bestResult : NominatimResult) (location : String) : GeocodeResult :=
  { lat := bestResult.lat
    lon := bestResult.lon
    display_name := bestResult.display_name
    confidence := calculateNominatimConfidence bestResult location
    source := "nominatim"
    country := jsOrStr (bestResult.address.bind NominatimAddress.country) ""
    city := jsOrStr (bestResult.address.bind NominatimAddress.city)
      (jsOrStr (bestResult.address.bind NominatimAddress.town)
        (jsOrStr (bestResult.address.bind NominatimAddress.village) ""))
    state := jsOrStr (bestResult.address.bind NominatimAddress.state)
      (jsOrStr (bestResult.address.bind NominatimAddress.province) "") }

/-- `tryNominatim(location)` as a function of the fetch outcome: a
transport failure throws; a missing or empty candidate list returns
`null`; otherwise the best candidate is normalized.  The body's
`success none` case renders a JSON body that is not an array (`!data`). -/
def tryNominatim (resp : FetchOutcome (Option (List NominatimResult))) (location : String) :
    Except Unit (Option GeocodeResult) :=
  match resp with
  | .failure => .error ()
  | .success none => .ok none
  | .success (some []) => .ok none
  | .success (some (c :: cs)) =>
    .ok (some (nominatimNormalize (findBestNominatimResult (c :: cs) location) location))

/-- The `GeocodeResult` `tryPhoton` builds from the first feature
(server.js:1129): Photon returns `[lon, lat]`, so `lat` is `coords[1]`
and `lon` is `coords[0]`. -/
def photonNormalize (f : PhotonFeature) (location : String) : GeocodeResult :=
  { lat := some f.coord1
    lon := some f.coord0
    display_name := formatPhotonDisplayName f.properties
    confidence := calculatePhotonConfidence f location
    source := "photon"
    country := jsOrStr f.properties.country ""
    city := jsOrStr f.properties.city ""
    state := jsOrStr f.properties.state "" }

/-- `tryPhoton(location)` as a function of the fetch outcome: a
transport failure throws; a body without features (`!data?.features`)
or with an empty feature list returns `null`; otherwise the first
feature (`data.features[0]`) is normalized. -/
def tryPhoton (resp : FetchOutcome (Option (List PhotonFeature))) (location : String) :
    Except Unit (Option GeocodeResult) :=
  match resp with
  | .failure => .error ()
  | .success none => .ok none
  | .success (some []) => .ok none
  | .success (some (f :: _)) => .ok (some (photonNormalize f location))

/-- `tryMapBox(location)` (server.js:1146): the whole implementation is
commented out; the adapter unconditionally does `return null`. -/
def tryMapBox (_location : String) : Except Unit (Option GeocodeResult) :=
  .ok none

/-- One cascade entry: provider name, the query it is given, and the
outcome of invoking it. -/
abbrev ProviderCall := String × String × Except Unit (Option GeocodeResult)

/-- The for-loop of `enhancedGeocode`: the first attempt yielding a
result wins and is returned at once; a `null` result and a thrown error
both fall through (`continue`) to the next provider.  The second
component logs each provider actually invoked with its query, in
order. -/
def runCascade : List ProviderCall → Option GeocodeResult × List (String × String)
  | [] => (none, [])
  | (name, q, attempt) :: rest =>
    match attempt with
    | .ok (some r) => (some r, [(name, q)])
    | .ok none => ((runCascade rest).1, (name, q) :: (runCascade rest).2)
    | .error _ => ((runCascade rest).1, (name, q) :: (runCascade rest).2)

/-- `enhancedGeocode(location)` as a function of the two real providers'
fetch outcomes: the fixed cascade Nominatim, Photon, MapBox, every
adapter invoked with the same `location`.  Total: the source's `catch`
turns every provider exception into fallthrough, and exhaustion returns
`null`, never a thrown error. -/
def enhancedGeocode (location : String)
    (nresp : FetchOutcome (Option (List NominatimResult)))
    (presp : FetchOutcome (Option (List PhotonFeature))) :
    Option GeocodeResult × List (String × String) :=
  runCascade
    [("Nominatim", location, tryNominatim nresp location),
     ("Photon", location, tryPhoton presp location),
     ("MapBox", location, tryMapBox location)]

/-! Sanity checks of the embedding on concrete values (scratch). -/

example : jsIncludes (jsToLower "Vancouver, BC, Canada") (jsToLower "Vancouver") = true := by
  decide

example : postalCodeTest "M5V 3L9" = true := by decide
example : postalCodeTest "M5V3L9" = true := by decide
example : postalCodeTest "90210" = false := by decide

example :
    calculateNominatimConfidence
      { lat := none, lon := none, display_name := "Nowhere", type := none, class_ := none,
        importance := some (mkRat 1 2), address := none } "Kanata" = "low" := by decide

example :
    formatPhotonDisplayName
      { name := some "A", street := none, city := some "B", state := none,
        country := some "C", osm_key := none } = "A, B, C" := by decide

example :
    formatPhotonDisplayName
      { name := none, street := none, city := none, state := none,
        country := none, osm_key := none } = "Unknown Location" := by decide

example : generateLocationSuggestions "Canada" = canadaSuggestion :: baseSuggestions := by
  decide

example : generateLocationSuggestions "USA" = usSuggestion :: baseSuggestions := by
  decide

/-! ### Shared lemmas about the embedding -/

lemma typeScores_nonneg (t : String) : 0 ≤ typeScores t := by
  unfold typeScores
  split_ifs <;> norm_num

lemma nominatimScore_nonneg (r : NominatimResult) (loc : String)
    (h : 0 ≤ jsImportance r) : 0 ≤ nominatimScore r loc := by
  unfold nominatimScore
  have h0 := typeScores_nonneg (jsOrStr r.type (jsOrStr r.class_ ""))
  have h10 : (0 : ℚ) ≤ jsImportance r * 10 := by
    have : (0 : ℚ) ≤ 10 := by norm_num
    exact mul_nonneg h this
  dsimp only
  split_ifs <;> linarith

/-- The loop-body score, written as the closed sum the spec describes:
type weight, plus ten times the importance (absent counting as zero),
plus the display-name bonus, plus the Canada/US country bonus. -/
lemma nominatimScore_eq (r : NominatimResult) (loc : String) :
    nominatimScore r loc =
      typeScores (jsOrStr r.type (jsOrStr r.class_ ""))
        + jsImportance r * 10
        + (if jsIncludes (jsToLower r.display_name) loc = true then (5 : ℚ) else 0)
        + (if (jsIncludes (jsOrStr ((r.address.bind NominatimAddress.country).map jsToLower) "")
                  "canada"
                || jsIncludes (jsOrStr ((r.address.bind NominatimAddress.country).map jsToLower) "")
                  "united states") = true
            then (3 : ℚ) else 0) := by
  unfold nominatimScore
  dsimp only
  by_cases ht : truthyNum r.importance = true
  · rw [if_pos ht]
    split_ifs <;> ring
  · rw [if_neg ht]
    have hz : jsImportance r = 0 := by
      rcases hi : r.importance with _ | q
      · simp [jsImportance, hi]
      · by_cases hq : q = 0
        · simp [jsImportance, hi, hq]
        · exact absurd (by simp [truthyNum, hi, hq]) ht
    rw [hz]
    split_ifs <;> ring

/-- Complete description of the best-candidate fold: either no candidate
beats the incoming score (accumulator kept, all scores at most `sb`), or
the fold lands on the first candidate of maximal score exceeding `sb`:
everything before it scores strictly less, everything after it at most
as much. -/
lemma findBestAux_spec (loc : String) (rs : List NominatimResult)
    (b : NominatimResult) (sb : ℚ) :
    (findBestAux loc rs (b, sb) = (b, sb) ∧ ∀ r ∈ rs, nominatimScore r loc ≤ sb)
    ∨ (∃ pre x post, rs = pre ++ x :: post
        ∧ findBestAux loc rs (b, sb) = (x, nominatimScore x loc)
        ∧ sb < nominatimScore x loc
        ∧ (∀ r ∈ pre, nominatimScore r loc < nominatimScore x loc)
        ∧ (∀ r ∈ post, nominatimScore r loc ≤ nominatimScore x loc)) := by
  induction rs generalizing b sb with
  | nil => exact Or.inl ⟨rfl, by simp⟩
  | cons r rest ih =>
    by_cases h : sb < nominatimScore r loc
    · have step : findBestAux loc (r :: rest) (b, sb)
          = findBestAux loc rest (r, nominatimScore r loc) := by
        simp only [findBestAux, if_pos h]
      rcases ih r (nominatimScore r loc) with ⟨heq, hall⟩ |
        ⟨pre, x, post, hsplit, heq, hlt, hpre, hpost⟩
      · refine Or.inr ⟨[], r, rest, by simp, ?_, h, by simp, hall⟩
        rw [step, heq]
      · refine Or.inr ⟨r :: pre, x, post, by rw [hsplit, List.cons_append], ?_,
          lt_trans h hlt, ?_, hpost⟩
        · rw [step, heq]
        · intro r' hr'
          rcases List.mem_cons.mp hr' with rfl | hr'
          · exact hlt
          · exact hpre r' hr'
    · have hle : nominatimScore r loc ≤ sb := not_lt.mp h
      have step : findBestAux loc (r :: rest) (b, sb) = findBestAux loc rest (b, sb) := by
        simp only [findBestAux, if_neg h]
      rcases ih b sb with ⟨heq, hall⟩ | ⟨pre, x, post, hsplit, heq, hlt, hpre, hpost⟩
      · refine Or.inl ⟨by rw [step, heq], ?_⟩
        intro r' hr'
        rcases List.mem_cons.mp hr' with rfl | hr'
        · exact hle
        · exact hall r' hr'
      · refine Or.inr ⟨r :: pre, x, post, by rw [hsplit, List.cons_append],
          by rw [step, heq], hlt, ?_, hpost⟩
        intro r' hr'
        rcases List.mem_cons.mp hr' with rfl | hr'
        · exact lt_of_le_of_lt hle hlt
        · exact hpre r' hr'

/-- The chosen candidate is one of the candidates. -/
lemma findBest_mem (results : List NominatimResult) (loc : String)
    (h : results ≠ []) : findBestNominatimResult results loc ∈ results := by
  obtain ⟨c, cs, rfl⟩ := List.exists_cons_of_ne_nil h
  unfold findBestNominatimResult
  dsimp only
  rcases findBestAux_spec (jsToLower loc) (c :: cs) ((c :: cs).headD default) 0 with
    ⟨heq, _⟩ | ⟨pre, x, post, hsplit, heq, _, _, _⟩
  · rw [heq]
    simp
  · rw [heq, hsplit]
    simp

/-- The source's `importance && importance > t` test coincides with
`t < importance` (absent importance counting as `0`) whenever the
threshold is positive. -/
lemma truthyNum_gt_iff (o : Option ℚ) (t : ℚ) (ht : 0 < t) :
    (truthyNum o && decide (t < o.getD 0)) = true ↔ t < o.getD 0 := by
  cases o with
  | none =>
    simp only [truthyNum, Bool.false_and, Bool.false_eq_true, false_iff, Option.getD_none]
    exact not_lt.mpr ht.le
  | some q =>
    constructor
    · intro hb
      simp only [truthyNum, Bool.and_eq_true, decide_eq_true_eq] at hb
      exact hb.2
    · intro hlt
      simp only [Option.getD_some] at hlt
      have hq : q ≠ 0 := (ht.trans hlt).ne'
      simp [truthyNum, hq, hlt]

lemma mkRat_seven_tenths : (mkRat 7 10 : ℚ) = 7 / 10 := by
  rw [Rat.mkRat_eq_div]; norm_num

lemma mkRat_four_tenths : (mkRat 4 10 : ℚ) = 4 / 10 := by
  rw [Rat.mkRat_eq_div]; norm_num

/-- A `join(', ')` of a list whose head is a non-empty string is
non-empty. -/
lemma joinComma_ne_empty (s : String) (rest : List String) (hs : s ≠ "") :
    joinComma (s :: rest) ≠ "" := by
  cases rest with
  | nil => simpa [joinComma] using hs
  | cons r t =>
    simp only [joinComma]
    intro hcontra
    apply hs
    have hdata := congrArg String.data hcontra
    rw [String.data_append, String.data_append] at hdata
    have : s.data = [] := List.append_eq_nil.mp (List.append_eq_nil.mp hdata).1 |>.1
    cases s
    simp_all

/-- Sequentially pushing truthy fields is filtering the present,
non-empty entries. -/
lemma pushTruthy_filter (o : Option String) (l : List (Option String)) :
    ((o :: l).filterMap id).filter (fun s => decide (s ≠ ""))
      = pushTruthy o ++ (l.filterMap id).filter (fun s => decide (s ≠ "")) := by
  cases o with
  | none => simp [pushTruthy, List.filterMap_cons]
  | some s =>
    by_cases h : s = "" <;> simp [pushTruthy, h, List.filterMap_cons]

/-- Every run of the cascade logs the head provider first: each entry
either wins immediately or falls through, and both branches record the
provider's name and query at the head of the log. -/
lemma runCascade_trace_head (name q : String) (att : Except Unit (Option GeocodeResult))
    (rest : List ProviderCall) :
    ∃ t, (runCascade ((name, q, att) :: rest)).2 = (name, q) :: t := by
  rcases att with e | o
  · exact ⟨(runCascade rest).2, rfl⟩
  · rcases o with _ | r
    · exact ⟨(runCascade rest).2, rfl⟩
    · exact ⟨[], rfl⟩

/-- A Photon-then-MapBox cascade can only produce a Photon result:
MapBox reports no result unconditionally. -/
lemma runCascade_photon_mapbox_source (location : String)
    (presp : FetchOutcome (Option (List PhotonFeature))) (r : GeocodeResult)
    (h : (runCascade [("Photon", location, tryPhoton presp location),
        ("MapBox", location, tryMapBox location)]).1 = some r) :
    r.source = "photon" := by
  rcases presp with _ | (_ | (_ | ⟨f, fs⟩))
  · simp [runCascade, tryPhoton, tryMapBox] at h
  · simp [runCascade, tryPhoton, tryMapBox] at h
  · simp [runCascade, tryPhoton, tryMapBox] at h
  · simp only [runCascade, tryPhoton, tryMapBox, Option.some.injEq] at h
    rw [← h]
    rfl

/-! ### Claim C2 -/

/-- Claim C2: when Nominatim yields a usable candidate (a successful
fetch whose body is a non-empty candidate list), `enhancedGeocode`
returns Nominatim's normalized result immediately and the call log is
the single Nominatim entry - neither Photon nor MapBox is invoked for
that call. -/
theorem nominatim_success_short_circuits (location : String)
    (data : List NominatimResult)
    (presp : FetchOutcome (Option (List PhotonFeature)))
    (hne : data ≠ []) :
    enhancedGeocode location (.success (some data)) presp
      = (some (nominatimNormalize (findBestNominatimResult data location) location),
          [("Nominatim", location)])
    ∧ ∀ q, ("Photon", q) ∉ (enhancedGeocode location (.success (some data)) presp).2
        ∧ ("MapBox", q) ∉ (enhancedGeocode location (.success (some data)) presp).2 := by
  obtain ⟨c, cs, rfl⟩ := List.exists_cons_of_ne_nil hne
  refine ⟨rfl, fun q => ⟨?_, ?_⟩⟩ <;>
  · show ¬ _ ∈ ([("Nominatim", location)] : List (String × String))
    simp only [List.mem_singleton, Prod.mk.injEq, not_and]
    intro hcontra
    exact absurd hcontra (by decide)

/-- Concrete instance of the claim C2 theorem. -/
def c2Candidate : NominatimResult :=
  { lat := some (mkRat 435 10), lon := some (mkRat (-80) 1),
    display_name := "Guelph, Ontario, Canada",
    type := some "city", class_ := none, importance := none, address := none }

/-- Witness for claim C2 at a concrete provider response. -/
theorem nominatim_success_short_circuits_witness :
    enhancedGeocode "Guelph" (.success (some [c2Candidate])) .failure
      = (some (nominatimNormalize (findBestNominatimResult [c2Candidate] "Guelph") "Guelph"),
          [("Nominatim", "Guelph")]) :=
  (nominatim_success_short_circuits "Guelph" [c2Candidate] .failure (by decide)).1

/-! ### Claim C3 -/

/-- Claim C3: when Nominatim fails - transport failure (thrown/timed
out), a body that is not a candidate list, or an empty candidate list -
the cascade's next call is Photon with exactly the same query text, and
the overall outcome equals that of the remaining Photon-then-MapBox
cascade: no single provider failure aborts resolution. -/
theorem nominatim_failure_falls_through (location : String)
    (nresp : FetchOutcome (Option (List NominatimResult)))
    (presp : FetchOutcome (Option (List PhotonFeature)))
    (hfail : nresp = .failure ∨ nresp = .success none ∨ nresp = .success (some [])) :
    ∃ rest, (enhancedGeocode location nresp presp).2
        = ("Nominatim", location) :: ("Photon", location) :: rest
      ∧ (enhancedGeocode location nresp presp).1
          = (runCascade [("Photon", location, tryPhoton presp location),
              ("MapBox", location, tryMapBox location)]).1 := by
  obtain ⟨t, ht⟩ := runCascade_trace_head "Photon" location (tryPhoton presp location)
    [("MapBox", location, tryMapBox location)]
  rcases hfail with rfl | rfl | rfl <;>
  · refine ⟨t, ?_, rfl⟩
    show ("Nominatim", location)
        :: (runCascade [("Photon", location, tryPhoton presp location),
            ("MapBox", location, tryMapBox location)]).2 = _
    rw [ht]

/-- Witness for claim C3 at a concrete failing response. -/
theorem nominatim_failure_falls_through_witness :
    ∃ rest, (enhancedGeocode "Waterloo" .failure .failure).2
        = ("Nominatim", "Waterloo") :: ("Photon", "Waterloo") :: rest
      ∧ (enhancedGeocode "Waterloo" .failure .failure).1
          = (runCascade [("Photon", "Waterloo", tryPhoton .failure "Waterloo"),
              ("MapBox", "Waterloo", tryMapBox "Waterloo")]).1 :=
  nominatim_failure_falls_through "Waterloo" .failure .failure (Or.inl rfl)

/-! ### Claim C4 -/

/-- Claim C4: when Nominatim and Photon both fail (throw, time out, or
return no candidates) the cascade - MapBox reporting no result
unconditionally - returns NotFound (`none`) as an ordinary value with
all three providers logged; `enhancedGeocode` is a total function into
`Option`, so no exception reaches the caller. -/
theorem all_providers_fail_notfound (location : String)
    (nresp : FetchOutcome (Option (List NominatimResult)))
    (presp : FetchOutcome (Option (List PhotonFeature)))
    (hn : nresp = .failure ∨ nresp = .success none ∨ nresp = .success (some []))
    (hp : presp = .failure ∨ presp = .success none ∨ presp = .success (some [])) :
    enhancedGeocode location nresp presp
      = (none, [("Nominatim", location), ("Photon", location), ("MapBox", location)]) := by
  rcases hn with rfl | rfl | rfl <;> rcases hp with rfl | rfl | rfl <;> rfl

/-- Witness for claim C4 at concrete failing responses. -/
theorem all_providers_fail_notfound_witness :
    enhancedGeocode "Nowhereville" .failure .failure
      = (none, [("Nominatim", "Nowhereville"), ("Photon", "Nowhereville"),
          ("MapBox", "Nowhereville")]) :=
  all_providers_fail_notfound "Nowhereville" .failure .failure (Or.inl rfl) (Or.inl rfl)

/-! ### Claim C10 -/

/-- Claim C10: any `GeocodeResult` the cascade returns has source
`nominatim` or `photon`, never `mapbox`: the MapBox adapter's body is
commented out and unconditionally reports no result, so the cascade can
only succeed at the first two providers. -/
theorem geocode_source_nominatim_or_photon (location : String)
    (nresp : FetchOutcome (Option (List NominatimResult)))
    (presp : FetchOutcome (Option (List PhotonFeature)))
    (r : GeocodeResult)
    (h : (enhancedGeocode location nresp presp).1 = some r) :
    r.source = "nominatim" ∨ r.source = "photon" := by
  rcases nresp with _ | (_ | (_ | ⟨c, cs⟩))
  · exact Or.inr (runCascade_photon_mapbox_source location presp r h)
  · exact Or.inr (runCascade_photon_mapbox_source location presp r h)
  · exact Or.inr (runCascade_photon_mapbox_source location presp r h)
  · exact Or.inl (Option.some.inj h ▸ rfl)

/-- Concrete Photon response for the claim C10 witness. -/
def c10Feature : PhotonFeature :=
  { coord0 := mkRat (-79) 1, coord1 := mkRat 43 1,
    properties := { name := some "Toronto", street := none, city := none, state := none,
                    country := some "Canada", osm_key := some "place" } }

/-- Witness for claim C10 at a concrete provider environment. -/
theorem geocode_source_nominatim_or_photon_witness :
    (photonNormalize c10Feature "Toronto").source = "nominatim"
      ∨ (photonNormalize c10Feature "Toronto").source = "photon" :=
  geocode_source_nominatim_or_photon "Toronto" .failure (.success (some [c10Feature]))
    (photonNormalize c10Feature "Toronto") rfl

/-! ### Claim C1 -/

/-- The provider response refuting claim C1 as stated: a Nominatim
candidate whose latitude string parses to `999`. -/
def c1Candidate : NominatimResult :=
  { lat := some (mkRat 999 1), lon := some (mkRat 0 1), display_name := "Nowhere",
    type := none, class_ := none, importance := none, address := none }

/-- Counterexample to claim C1: the resolver performs no range
validation, so a provider candidate carrying an out-of-range latitude
string is passed straight through `parseFloat` and `enhancedGeocode`
returns a result whose latitude is `999`, outside `[-90, 90]`. -/
theorem geocode_out_of_range_latitude :
    ∃ r, (enhancedGeocode "Springfield" (.success (some [c1Candidate])) .failure).1 = some r
      ∧ r.lat = some (mkRat 999 1)
      ∧ ¬ ((-90 : ℚ) ≤ mkRat 999 1 ∧ (mkRat 999 1 : ℚ) ≤ 90) :=
  ⟨nominatimNormalize (findBestNominatimResult [c1Candidate] "Springfield") "Springfield",
    rfl, by decide, by decide⟩

/-- A Photon-then-MapBox cascade result has in-range coordinates
whenever every Photon feature does. -/
lemma runCascade_photon_mapbox_range (location : String)
    (presp : FetchOutcome (Option (List PhotonFeature))) (r : GeocodeResult)
    (hp : ∀ fs, presp = .success (some fs) → ∀ f ∈ fs,
        ((-90 : ℚ) ≤ f.coord1 ∧ f.coord1 ≤ 90)
          ∧ ((-180 : ℚ) ≤ f.coord0 ∧ f.coord0 ≤ 180))
    (h : (runCascade [("Photon", location, tryPhoton presp location),
        ("MapBox", location, tryMapBox location)]).1 = some r) :
    (∃ q, r.lat = some q ∧ (-90 : ℚ) ≤ q ∧ q ≤ 90)
      ∧ (∃ q, r.lon = some q ∧ (-180 : ℚ) ≤ q ∧ q ≤ 180) := by
  rcases presp with _ | (_ | (_ | ⟨f, fs⟩))
  · simp [runCascade, tryPhoton, tryMapBox] at h
  · simp [runCascade, tryPhoton, tryMapBox] at h
  · simp [runCascade, tryPhoton, tryMapBox] at h
  · simp only [runCascade, tryPhoton, tryMapBox, Option.some.injEq] at h
    obtain ⟨h1, h2⟩ := hp (f :: fs) rfl f (List.mem_cons_self f fs)
    subst h
    exact ⟨⟨f.coord1, rfl, h1⟩, ⟨f.coord0, rfl, h2⟩⟩

/-- Claim C1 amended: the resolver passes the winning candidate's parsed
coordinates through unchanged and performs no validation of its own, so
the returned latitude/longitude are within valid ranges exactly under
the assumption that every candidate of the provider responses carries
numeric, in-range coordinates. -/
theorem geocode_range_passthrough (location : String)
    (nresp : FetchOutcome (Option (List NominatimResult)))
    (presp : FetchOutcome (Option (List PhotonFeature)))
    (hn : ∀ data, nresp = .success (some data) → ∀ c ∈ data,
        (∃ q, c.lat = some q ∧ (-90 : ℚ) ≤ q ∧ q ≤ 90)
          ∧ (∃ q, c.lon = some q ∧ (-180 : ℚ) ≤ q ∧ q ≤ 180))
    (hp : ∀ fs, presp = .success (some fs) → ∀ f ∈ fs,
        ((-90 : ℚ) ≤ f.coord1 ∧ f.coord1 ≤ 90)
          ∧ ((-180 : ℚ) ≤ f.coord0 ∧ f.coord0 ≤ 180))
    (r : GeocodeResult)
    (h : (enhancedGeocode location nresp presp).1 = some r) :
    (∃ q, r.lat = some q ∧ (-90 : ℚ) ≤ q ∧ q ≤ 90)
      ∧ (∃ q, r.lon = some q ∧ (-180 : ℚ) ≤ q ∧ q ≤ 180) := by
  rcases nresp with _ | (_ | (_ | ⟨c, cs⟩))
  · exact runCascade_photon_mapbox_range location presp r hp h
  · exact runCascade_photon_mapbox_range location presp r hp h
  · exact runCascade_photon_mapbox_range location presp r hp h
  · have hbest : findBestNominatimResult (c :: cs) location ∈ (c :: cs) :=
      findBest_mem _ _ (by simp)
    obtain ⟨h1, h2⟩ := hn (c :: cs) rfl _ hbest
    have hr : nominatimNormalize (findBestNominatimResult (c :: cs) location) location = r :=
      Option.some.inj h
    subst hr
    exact ⟨h1, h2⟩

/-- Concrete in-range provider response for the amended claim C1
witness. -/
def c1GoodCandidate : NominatimResult :=
  { lat := some (mkRat 45 1), lon := some (mkRat (-75) 1), display_name := "Ottawa",
    type := some "city", class_ := none, importance := none, address := none }

/-- Witness for the amended claim C1 at a concrete provider
environment. -/
theorem geocode_range_passthrough_witness :
    (∃ q, (nominatimNormalize (findBestNominatimResult [c1GoodCandidate] "Ottawa")
        "Ottawa").lat = some q ∧ (-90 : ℚ) ≤ q ∧ q ≤ 90)
      ∧ (∃ q, (nominatimNormalize (findBestNominatimResult [c1GoodCandidate] "Ottawa")
          "Ottawa").lon = some q ∧ (-180 : ℚ) ≤ q ∧ q ≤ 180) :=
  geocode_range_passthrough "Ottawa" (.success (some [c1GoodCandidate])) .failure
    (fun data hd => by
      simp only [FetchOutcome.success.injEq, Option.some.injEq] at hd
      subst hd
      intro c hc
      simp only [List.mem_singleton] at hc
      subst hc
      exact ⟨⟨mkRat 45 1, rfl, by decide, by decide⟩,
        ⟨mkRat (-75) 1, rfl, by decide, by decide⟩⟩)
    (fun fs hf => by simp at hf)
    (nominatimNormalize (findBestNominatimResult [c1GoodCandidate] "Ottawa") "Ottawa") rfl

/-! ### Claim C5 -/

/-- Claim C5: on a non-empty candidate list whose importance values are
nonnegative (as Nominatim importances are), `findBestNominatimResult`
returns the first candidate of maximal score: no candidate scores
higher and every candidate strictly before the chosen one scores
strictly lower, so equal scores keep the earliest candidate.  The last
conjunct spells the score out as the claim does: the fixed type-weight
table, plus importance scaled by 10, plus 5 for a display-name match,
plus 3 for a Canada/United States country. -/
theorem findBest_first_max (results : List NominatimResult) (query : String)
    (hne : results ≠ []) (hnn : ∀ r ∈ results, 0 ≤ jsImportance r) :
    (∃ pre post,
        results = pre ++ findBestNominatimResult results query :: post
        ∧ (∀ r ∈ results, nominatimScore r (jsToLower query)
            ≤ nominatimScore (findBestNominatimResult results query) (jsToLower query))
        ∧ (∀ r ∈ pre, nominatimScore r (jsToLower query)
            < nominatimScore (findBestNominatimResult results query) (jsToLower query)))
    ∧ ∀ r : NominatimResult, nominatimScore r (jsToLower query) =
        typeScores (jsOrStr r.type (jsOrStr r.class_ ""))
          + jsImportance r * 10
          + (if jsIncludes (jsToLower r.display_name) (jsToLower query) = true
              then (5 : ℚ) else 0)
          + (if (jsIncludes
                  (jsOrStr ((r.address.bind NominatimAddress.country).map jsToLower) "")
                  "canada"
                || jsIncludes
                  (jsOrStr ((r.address.bind NominatimAddress.country).map jsToLower) "")
                  "united states") = true
              then (3 : ℚ) else 0) := by
  refine ⟨?_, fun r => nominatimScore_eq r (jsToLower query)⟩
  obtain ⟨c, cs, rfl⟩ := List.exists_cons_of_ne_nil hne
  have hbd : findBestNominatimResult (c :: cs) query
      = (findBestAux (jsToLower query) (c :: cs) (c, 0)).1 := rfl
  rcases findBestAux_spec (jsToLower query) (c :: cs) c 0 with ⟨heq, hall⟩ |
    ⟨pre, x, post, hsplit, heq, _, hpre, hpost⟩
  · have hbc : findBestNominatimResult (c :: cs) query = c := by rw [hbd, heq]
    refine ⟨[], cs, by rw [hbc]; rfl, ?_, by simp⟩
    intro r hr
    calc nominatimScore r (jsToLower query) ≤ 0 := hall r hr
      _ ≤ nominatimScore (findBestNominatimResult (c :: cs) query) (jsToLower query) := by
          rw [hbc]
          exact nominatimScore_nonneg c _ (hnn c (List.mem_cons_self c cs))
  · have hbx : findBestNominatimResult (c :: cs) query = x := by rw [hbd, heq]
    refine ⟨pre, post, by rw [hbx]; exact hsplit, ?_, by rw [hbx]; exact hpre⟩
    intro r hr
    rw [hbx]
    rw [hsplit] at hr
    rcases List.mem_append.mp hr with hr | hr
    · exact (hpre r hr).le
    · rcases List.mem_cons.mp hr with rfl | hr
      · exact le_refl _
      · exact hpost r hr

/-- Concrete tied candidates for the claim C5 witness. -/
def c5CandA : NominatimResult :=
  { lat := some (mkRat 1 1), lon := some (mkRat 2 1), display_name := "Alpha",
    type := some "town", class_ := none, importance := none, address := none }

/-- Second tied candidate for the claim C5 witness. -/
def c5CandB : NominatimResult :=
  { lat := some (mkRat 3 1), lon := some (mkRat 4 1), display_name := "Beta",
    type := some "town", class_ := none, importance := none, address := none }

/-- Witness for claim C5 at a concrete two-candidate list. -/
theorem findBest_first_max_witness :
    (∃ pre post,
        [c5CandA, c5CandB] = pre ++ findBestNominatimResult [c5CandA, c5CandB] "Delta" :: post
        ∧ (∀ r ∈ [c5CandA, c5CandB], nominatimScore r (jsToLower "Delta")
            ≤ nominatimScore (findBestNominatimResult [c5CandA, c5CandB] "Delta")
                (jsToLower "Delta"))
        ∧ (∀ r ∈ pre, nominatimScore r (jsToLower "Delta")
            < nominatimScore (findBestNominatimResult [c5CandA, c5CandB] "Delta")
                (jsToLower "Delta")))
    ∧ ∀ r : NominatimResult, nominatimScore r (jsToLower "Delta") =
        typeScores (jsOrStr r.type (jsOrStr r.class_ ""))
          + jsImportance r * 10
          + (if jsIncludes (jsToLower r.display_name) (jsToLower "Delta") = true
              then (5 : ℚ) else 0)
          + (if (jsIncludes
                  (jsOrStr ((r.address.bind NominatimAddress.country).map jsToLower) "")
                  "canada"
                || jsIncludes
                  (jsOrStr ((r.address.bind NominatimAddress.country).map jsToLower) "")
                  "united states") = true
              then (3 : ℚ) else 0) :=
  findBest_first_max [c5CandA, c5CandB] "Delta" (by decide) (by decide)

/-! ### Claim C6 -/

/-- Claim C6: Nominatim confidence is `high` exactly when the lowercased
display name contains the lowercased query, or the query matches the
Canadian postal-code shape (letter digit letter, optional space, digit
letter digit), or the importance exceeds 0.7; consequently a
postal-shaped query yields confidence `high` whenever Nominatim returns
any candidate. -/
theorem nominatim_high_iff (r : NominatimResult) (location : String) :
    (calculateNominatimConfidence r location = "high"
      ↔ (jsIncludes (jsToLower r.display_name) (jsToLower location) = true
          ∨ postalCodeTest location = true
          ∨ (7 : ℚ) / 10 < jsImportance r))
    ∧ (postalCodeTest location = true → ∀ c cs, ∃ g,
        tryNominatim (.success (some (c :: cs))) location = .ok (some g)
          ∧ g.confidence = "high") := by
  have hbridge : ∀ r' : NominatimResult,
      (truthyNum r'.importance && decide (mkRat 7 10 < jsImportance r')) = true
        ↔ (7 : ℚ) / 10 < jsImportance r' := by
    intro r'
    rw [← mkRat_seven_tenths]
    exact truthyNum_gt_iff r'.importance (mkRat 7 10) (by decide)
  have main : ∀ r' : NominatimResult,
      calculateNominatimConfidence r' location = "high"
        ↔ (jsIncludes (jsToLower r'.display_name) (jsToLower location) = true
            ∨ postalCodeTest location = true
            ∨ (7 : ℚ) / 10 < jsImportance r') := by
    intro r'
    unfold calculateNominatimConfidence
    dsimp only
    by_cases hc : (jsIncludes (jsToLower r'.display_name) (jsToLower location)
        || postalCodeTest location
        || (truthyNum r'.importance && decide (mkRat 7 10 < jsImportance r'))) = true
    · rw [if_pos hc]
      refine iff_of_true rfl ?_
      rcases (Bool.or_eq_true _ _).mp hc with hab | hcc
      · rcases (Bool.or_eq_true _ _).mp hab with ha | hb
        · exact Or.inl ha
        · exact Or.inr (Or.inl hb)
      · exact Or.inr (Or.inr ((hbridge r').mp hcc))
    · rw [if_neg hc]
      refine iff_of_false ?_ ?_
      · intro hconf
        split_ifs at hconf
        · exact absurd hconf (by decide)
        · exact absurd hconf (by decide)
      · intro hrhs
        apply hc
        rcases hrhs with h1 | h2 | h3
        · exact (Bool.or_eq_true _ _).mpr
            (Or.inl ((Bool.or_eq_true _ _).mpr (Or.inl h1)))
        · exact (Bool.or_eq_true _ _).mpr
            (Or.inl ((Bool.or_eq_true _ _).mpr (Or.inr h2)))
        · exact (Bool.or_eq_true _ _).mpr (Or.inr ((hbridge r').mpr h3))
  refine ⟨main r, fun hp c cs =>
    ⟨nominatimNormalize (findBestNominatimResult (c :: cs) location) location, rfl, ?_⟩⟩
  show calculateNominatimConfidence (findBestNominatimResult (c :: cs) location) location
      = "high"
  exact (main _).mpr (Or.inr (Or.inl hp))

/-- Concrete candidate for the claim C6 witness. -/
def c6Candidate : NominatimResult :=
  { lat := some (mkRat 453 10), lon := some (mkRat (-757) 10), display_name := "Ottawa",
    type := none, class_ := none, importance := none, address := none }

/-- Witness for claim C6: a postal-shaped query yields `high` as soon as
Nominatim returns a candidate. -/
theorem nominatim_high_iff_witness :
    ∃ g, tryNominatim (.success (some [c6Candidate])) "K1A 0B1" = .ok (some g)
      ∧ g.confidence = "high" :=
  (nominatim_high_iff c6Candidate "K1A 0B1").2 (by decide) c6Candidate []

/-! ### Claim C7 -/

/-- The candidate refuting claim C7 as stated: no address record and
importance `0.5`. -/
def c7Candidate : NominatimResult :=
  { lat := some (mkRat 45 1), lon := some (mkRat (-75) 1),
    display_name := "Ottawa, Ontario, Canada",
    type := none, class_ := none, importance := some (mkRat 1 2), address := none }

/-- Counterexample to claim C7: for a candidate without an address
record, with no `high` condition holding and importance `0.5 > 0.4`,
the code returns `low` where the claim requires `medium`: the whole
`medium` disjunction, the importance threshold included, is gated on
`result.address &&`. -/
theorem no_address_gets_low :
    calculateNominatimConfidence c7Candidate "Kanata" = "low"
      ∧ calculateNominatimConfidence c7Candidate "Kanata" ≠ "high"
      ∧ c7Candidate.address = none
      ∧ mkRat 4 10 < jsImportance c7Candidate :=
  ⟨by decide, by decide, rfl, by decide⟩

/-- Claim C7 amended: when no `high` condition holds, `medium`
additionally requires the candidate to carry an address record - a
candidate without one always gets `low`, even with importance above
0.4.  With an address record present, the result is `medium` exactly
when the candidate's city, town or state is carried and its lowercase
form is a substring of the lowercased query, or importance exceeds 0.4,
and `low` otherwise.  (The side condition that the query does not
contain the text `undefined` rules out JS's coercion of an absent field
to the string `"undefined"` inside `includes`.) -/
theorem nominatim_medium_requires_address (r : NominatimResult) (location : String)
    (hhigh : calculateNominatimConfidence r location ≠ "high")
    (hu : jsIncludes (jsToLower location) "undefined" = false) :
    (r.address = none → calculateNominatimConfidence r location = "low")
    ∧ ∀ addr, r.address = some addr →
        ((calculateNominatimConfidence r location = "medium"
          ↔ ((∃ c, addr.city = some c
                ∧ jsIncludes (jsToLower location) (jsToLower c) = true)
             ∨ (∃ c, addr.town = some c
                ∧ jsIncludes (jsToLower location) (jsToLower c) = true)
             ∨ (∃ c, addr.state = some c
                ∧ jsIncludes (jsToLower location) (jsToLower c) = true)
             ∨ (4 : ℚ) / 10 < jsImportance r))
         ∧ (calculateNominatimConfidence r location = "medium"
            ∨ calculateNominatimConfidence r location = "low")) := by
  have hbridge4 : (truthyNum r.importance && decide (mkRat 4 10 < jsImportance r)) = true
      ↔ (4 : ℚ) / 10 < jsImportance r := by
    rw [← mkRat_four_tenths]
    exact truthyNum_gt_iff r.importance (mkRat 4 10) (by decide)
  have hcond : (jsIncludes (jsToLower r.display_name) (jsToLower location)
      || postalCodeTest location
      || (truthyNum r.importance && decide (mkRat 7 10 < jsImportance r))) = false := by
    rcases Bool.eq_false_or_eq_true (jsIncludes (jsToLower r.display_name) (jsToLower location)
        || postalCodeTest location
        || (truthyNum r.importance && decide (mkRat 7 10 < jsImportance r))) with h | h
    · exfalso
      apply hhigh
      unfold calculateNominatimConfidence
      dsimp only
      rw [if_pos h]
    · exact h
  have hform : calculateNominatimConfidence r location
      = (if (match r.address with
            | some addr =>
              jsIncludes (jsToLower location) (lowerOrUndefined addr.city)
                || jsIncludes (jsToLower location) (lowerOrUndefined addr.town)
                || jsIncludes (jsToLower location) (lowerOrUndefined addr.state)
                || (truthyNum r.importance && decide (mkRat 4 10 < jsImportance r))
            | none => false) = true then "medium" else "low") := by
    unfold calculateNominatimConfidence
    dsimp only
    rw [if_neg (by rw [hcond]; simp)]
  have fieldBridge : ∀ o : Option String,
      (jsIncludes (jsToLower location) (lowerOrUndefined o) = true)
        ↔ ∃ c, o = some c ∧ jsIncludes (jsToLower location) (jsToLower c) = true := by
    intro o
    cases o with
    | none => simp [lowerOrUndefined, hu]
    | some c => simp [lowerOrUndefined]
  constructor
  · intro hnone
    rw [hform, hnone]
    rfl
  · intro addr haddr
    rw [hform, haddr]
    dsimp only
    have hM : (jsIncludes (jsToLower location) (lowerOrUndefined addr.city)
        || jsIncludes (jsToLower location) (lowerOrUndefined addr.town)
        || jsIncludes (jsToLower location) (lowerOrUndefined addr.state)
        || (truthyNum r.importance && decide (mkRat 4 10 < jsImportance r))) = true
        ↔ ((∃ c, addr.city = some c
              ∧ jsIncludes (jsToLower location) (jsToLower c) = true)
           ∨ (∃ c, addr.town = some c
              ∧ jsIncludes (jsToLower location) (jsToLower c) = true)
           ∨ (∃ c, addr.state = some c
              ∧ jsIncludes (jsToLower location) (jsToLower c) = true)
           ∨ (4 : ℚ) / 10 < jsImportance r) := by
      rw [Bool.or_eq_true, Bool.or_eq_true, Bool.or_eq_true,
        fieldBridge addr.city, fieldBridge addr.town, fieldBridge addr.state, hbridge4,
        or_assoc, or_assoc]
    constructor
    · by_cases hm : (jsIncludes (jsToLower location) (lowerOrUndefined addr.city)
          || jsIncludes (jsToLower location) (lowerOrUndefined addr.town)
          || jsIncludes (jsToLower location) (lowerOrUndefined addr.state)
          || (truthyNum r.importance && decide (mkRat 4 10 < jsImportance r))) = true
      · rw [if_pos hm]
        exact iff_of_true rfl (hM.mp hm)
      · rw [if_neg hm]
        exact iff_of_false (by decide) fun hd => hm (hM.mpr hd)
    · by_cases hm : (jsIncludes (jsToLower location) (lowerOrUndefined addr.city)
          || jsIncludes (jsToLower location) (lowerOrUndefined addr.town)
          || jsIncludes (jsToLower location) (lowerOrUndefined addr.state)
          || (truthyNum r.importance && decide (mkRat 4 10 < jsImportance r))) = true
      · rw [if_pos hm]
        exact Or.inl rfl
      · rw [if_neg hm]
        exact Or.inr rfl

/-- Concrete address record for the amended claim C7 witness. -/
def c7Addr : NominatimAddress :=
  { country := some "Canada", city := some "Toronto", town := none, village := none,
    state := none, province := none }

/-- Concrete candidate with an address record for the amended claim C7
witness. -/
def c7GoodCandidate : NominatimResult :=
  { lat := some (mkRat 437 10), lon := some (mkRat (-794) 10), display_name := "City Hall",
    type := none, class_ := none, importance := none, address := some c7Addr }

/-- Witness for the amended claim C7 at a concrete candidate whose city
matches the query. -/
theorem nominatim_medium_requires_address_witness :
    (calculateNominatimConfidence c7GoodCandidate "Toronto ON" = "medium"
      ↔ ((∃ c, c7Addr.city = some c
            ∧ jsIncludes (jsToLower "Toronto ON") (jsToLower c) = true)
         ∨ (∃ c, c7Addr.town = some c
            ∧ jsIncludes (jsToLower "Toronto ON") (jsToLower c) = true)
         ∨ (∃ c, c7Addr.state = some c
            ∧ jsIncludes (jsToLower "Toronto ON") (jsToLower c) = true)
         ∨ (4 : ℚ) / 10 < jsImportance c7GoodCandidate))
     ∧ (calculateNominatimConfidence c7GoodCandidate "Toronto ON" = "medium"
        ∨ calculateNominatimConfidence c7GoodCandidate "Toronto ON" = "low") :=
  (nominatim_medium_requires_address c7GoodCandidate "Toronto ON" (by decide) (by decide)).2
    c7Addr rfl

/-! ### Claim C8 -/

/-- The present fields of a Photon properties record, in the claim's
sense and order (name, street, city, state, country): carried by the
record and non-empty.  Stated from the claim's words, to compare
against `formatPhotonDisplayName`. -/
def photonPresentFields (p : PhotonProperties) : List String :=
  ([p.name, p.street, p.city, p.state, p.country].filterMap id).filter
    (fun s => decide (s ≠ ""))

/-- Claim C8: `formatPhotonDisplayName` returns the comma-separated
join, in order, of whichever of name, street, city, state, country are
present, and the literal `Unknown Location` when none are. -/
theorem photon_display_name_join (p : PhotonProperties) :
    (photonPresentFields p ≠ [] →
        formatPhotonDisplayName p = joinComma (photonPresentFields p))
    ∧ (photonPresentFields p = [] → formatPhotonDisplayName p = "Unknown Location") := by
  have hparts : photonPresentFields p
      = pushTruthy p.name ++ pushTruthy p.street ++ pushTruthy p.city
          ++ pushTruthy p.state ++ pushTruthy p.country := by
    unfold photonPresentFields
    rw [pushTruthy_filter, pushTruthy_filter, pushTruthy_filter, pushTruthy_filter,
      pushTruthy_filter]
    simp [List.append_assoc]
  constructor
  · intro hne
    unfold formatPhotonDisplayName
    dsimp only
    rw [← hparts]
    obtain ⟨s, t, hst⟩ := List.exists_cons_of_ne_nil hne
    have hsmem : s ∈ photonPresentFields p := by
      rw [hst]
      exact List.mem_cons_self s t
    have hs : s ≠ "" := by
      have := List.of_mem_filter hsmem
      simpa using this
    rw [hst]
    have hjoin := joinComma_ne_empty s t hs
    simp [jsOrStr, hjoin]
  · intro hnil
    unfold formatPhotonDisplayName
    dsimp only
    rw [← hparts, hnil]
    rfl

/-- Concrete Photon properties for the claim C8 witness. -/
def c8Props : PhotonProperties :=
  { name := some "Union Station", street := some "Front St W", city := some "Toronto",
    state := some "Ontario", country := some "Canada", osm_key := none }

/-- Witness for claim C8 at a concrete properties record. -/
theorem photon_display_name_join_witness :
    formatPhotonDisplayName c8Props = joinComma (photonPresentFields c8Props) :=
  (photon_display_name_join c8Props).1 (by decide)

/-! ### Claim C9 -/

/-- Claim C9: the suggestion list always contains the five fixed generic
hints and is non-empty; a query containing `canada`/`canadian` gets the
province hint prepended, one containing `us`/`america` gets the state
hint prepended; concretely, `"Canada"` yields exactly the Canada hint
(which mentions `province`) prepended to the base list, and `"USA"` the
US hint (which mentions `state`). -/
theorem suggestions_spec (location : String) :
    (∀ s ∈ baseSuggestions, s ∈ generateLocationSuggestions location)
    ∧ generateLocationSuggestions location ≠ []
    ∧ ((jsIncludes (jsToLower location) "canada" = true
          ∨ jsIncludes (jsToLower location) "canadian" = true)
        → canadaSuggestion ∈ generateLocationSuggestions location)
    ∧ ((jsIncludes (jsToLower location) "us" = true
          ∨ jsIncludes (jsToLower location) "america" = true)
        → usSuggestion ∈ generateLocationSuggestions location)
    ∧ generateLocationSuggestions "Canada" = canadaSuggestion :: baseSuggestions
    ∧ generateLocationSuggestions "USA" = usSuggestion :: baseSuggestions
    ∧ jsIncludes canadaSuggestion "province" = true
    ∧ jsIncludes usSuggestion "state" = true := by
  refine ⟨?_, ?_, ?_, ?_, by decide, by decide, by decide, by decide⟩
  · intro s hs
    unfold generateLocationSuggestions
    dsimp only
    split_ifs <;> simp [hs]
  · unfold generateLocationSuggestions
    dsimp only
    split_ifs <;> simp [baseSuggestions]
  · intro h
    have hc : (jsIncludes (jsToLower location) "canada"
        || jsIncludes (jsToLower location) "canadian") = true := by
      rcases h with h | h <;> simp [h]
    unfold generateLocationSuggestions
    dsimp only
    rw [if_pos hc]
    split_ifs <;> simp
  · intro h
    have hc : (jsIncludes (jsToLower location) "us"
        || jsIncludes (jsToLower location) "america") = true := by
      rcases h with h | h <;> simp [h]
    unfold generateLocationSuggestions
    dsimp only
    rw [if_pos hc]
    simp

/-- Witness for claim C9: the query `"Canada"` produces the
province-mentioning hint. -/
theorem suggestions_spec_witness :
    canadaSuggestion ∈ generateLocationSuggestions "Canada" :=
  (suggestions_spec "Canada").2.2.1 (Or.inl (by decide))
